import Mathlib

/-!
Shallow embedding of the Nessus report normalization and verification-merge
core of this repository (`src/cai/agents/nessus_verifier.py` and
`src/cai/tools/nessus/nessus_tools.py`), together with proofs settling the
frozen claims C1-C10.

Python values (results of `json.loads` and the dynamic dicts the code passes
around) are embedded as the inductive `PyVal`; Python floats are modelled as
exact rationals (every JSON decimal literal is exactly representable, and the
decimal renderings the theorems exercise agree with CPython's `str`);
Python code that can raise is embedded in `Except String`.  All recursive
definitions are structural (on an explicit fuel or on a list), so every
definition evaluates inside the kernel via `rfl` / `decide`.
-/

/-- The open-brace character, written via an escape. -/
def lbrace : Char := '\x7b'

/-- The close-brace character, written via an escape. -/
def rbrace : Char := '\x7d'

/-- Python `str.strip()` whitespace class (ASCII part). -/
def isPyWs (c : Char) : Bool :=
  c == ' ' || c == '\t' || c == '\n' || c == '\r' || c == '\x0b' || c == '\x0c'

/-- Python `str.strip()` on the character list. -/
def stripChars (cs : List Char) : List Char :=
  ((cs.dropWhile isPyWs).reverse.dropWhile isPyWs).reverse

/-- Python `str.strip()`. -/
def pythonStrip (s : String) : String :=
  String.mk (stripChars s.data)

/-- Does the character list start with the given pattern? -/
def lStarts : List Char → List Char → Bool
  | [], _ => true
  | _ :: _, [] => false
  | p :: ps, c :: cs => p == c && lStarts ps cs

/-- Does the character list end with the given pattern? -/
def lEnds (p cs : List Char) : Bool :=
  lStarts p.reverse cs.reverse

/-- Embedding of Python/JSON values as produced by `json.loads` and passed
around by the code: `None`, booleans, ints, floats (exact rationals),
strings, lists and (insertion-ordered) dicts with string keys. -/
inductive PyVal where
  | none : PyVal
  | bool : Bool → PyVal
  | int : Int → PyVal
  | float : Rat → PyVal
  | str : String → PyVal
  | list : List PyVal → PyVal
  | dict : List (String × PyVal) → PyVal

/-- Python truthiness (`bool(v)`) for the embedded values. -/
def pyTruthy : PyVal → Bool
  | PyVal.none => false
  | PyVal.bool b => b
  | PyVal.int n => n != 0
  | PyVal.float q => q != 0
  | PyVal.str s => s != ""
  | PyVal.list xs => !xs.isEmpty
  | PyVal.dict m => !m.isEmpty

/-- Python `a or b` on an embedded value (used as `d.get(k) or default`). -/
def pyOr (v d : PyVal) : PyVal :=
  if pyTruthy v then v else d

/-- First-occurrence lookup in an insertion-ordered dict
(Python dicts have unique keys, so first occurrence is the occurrence). -/
def dictLookup (m : List (String × PyVal)) (k : String) : Option PyVal :=
  (m.find? (fun p => p.1 == k)).map Prod.snd

/-- Python `dict.get(k, default)`. -/
def dictGetD (m : List (String × PyVal)) (k : String) (d : PyVal) : PyVal :=
  (dictLookup m k).getD d

/-- Python `d[k] = v` on an insertion-ordered association list: replace the
value in place if the key is present, else append. -/
def assocInsert {α : Type} (m : List (String × α)) (k : String) (v : α) :
    List (String × α) :=
  match m with
  | [] => [(k, v)]
  | (k', v') :: rest =>
      if k' == k then (k', v) :: rest else (k', v') :: assocInsert rest k v

/-- Smallest exponent `e ≤ fuel` with `d ∣ 10 ^ e` (searching from `k`). -/
def findDecExpAux (d : Nat) : Nat → Nat → Option Nat
  | 0, _ => Option.none
  | fuel + 1, k => if d ∣ 10 ^ k then some k else findDecExpAux d fuel (k + 1)

/-- Left-pad a digit string with zeros to length `k`. -/
def padZeros (s : String) (k : Nat) : String :=
  String.mk (List.replicate (k - s.length) '0') ++ s

/-- Decimal rendering of a rational whose denominator divides a power of ten,
modelling CPython `str(float)` on the values the theorems exercise (for such
values the shortest-roundtrip repr is exactly the finite decimal; very large
magnitudes, where CPython switches to exponent notation, do not occur). -/
def ratDecStr (q : Rat) : String :=
  match findDecExpAux q.den 64 0 with
  | Option.none => "<nondecimal>"
  | some k =>
      let sign := if q.num < 0 then "-" else ""
      let n : Nat := q.num.natAbs * 10 ^ k / q.den
      let ip : Nat := n / 10 ^ k
      let fp : Nat := n % 10 ^ k
      if k == 0 then sign ++ toString ip ++ ".0"
      else sign ++ toString ip ++ "." ++ padZeros (toString fp) k

/-- Python `repr` of an embedded value, approximated for container elements:
strings are single-quoted without escape handling (no theorem below inspects
the rendering of a container or of a quoted string). -/
def pyReprCore : Nat → PyVal → String
  | _, PyVal.none => "None"
  | _, PyVal.bool true => "True"
  | _, PyVal.bool false => "False"
  | _, PyVal.int n => toString n
  | _, PyVal.float q => ratDecStr q
  | _, PyVal.str s => "'" ++ s ++ "'"
  | 0, _ => ""
  | fuel + 1, PyVal.list xs =>
      "[" ++ String.intercalate ", " (xs.map (pyReprCore fuel)) ++ "]"
  | fuel + 1, PyVal.dict m =>
      "\x7b" ++ String.intercalate ", "
        (m.map (fun p => "'" ++ p.1 ++ "': " ++ pyReprCore fuel p.2)) ++ "\x7d"

/-- Python `str(v)` (as applied inside f-strings by the code). -/
def pyStr : PyVal → String
  | PyVal.str s => s
  | v => pyReprCore 32 v

/-! ### A model of `json.loads`

Strict-JSON recursive-descent parser over `List Char`, structural on an
explicit fuel so that it reduces in the kernel.  It accepts exactly the
strict JSON grammar (the `NaN`/`Infinity` extensions CPython also accepts do
not occur in any input a theorem below evaluates, and every concrete
candidate string in the theorems was checked by hand against CPython). -/

/-- JSON inter-token whitespace. -/
def jWs (c : Char) : Bool :=
  c == ' ' || c == '\t' || c == '\n' || c == '\r'

/-- Skip JSON whitespace. -/
def jSkip (cs : List Char) : List Char :=
  cs.dropWhile jWs

/-- Hexadecimal digit value. -/
def hexVal (c : Char) : Option Nat :=
  if c.isDigit then some (c.toNat - 48)
  else if 'a' ≤ c && c ≤ 'f' then some (c.toNat - 87)
  else if 'A' ≤ c && c ≤ 'F' then some (c.toNat - 55)
  else Option.none

/-- JSON string body after the opening quote; strict mode rejects raw control
characters, exactly like `json.loads` with its default `strict=True`. -/
def jStrAux : List Char → List Char → Option (String × List Char)
  | [], _ => Option.none
  | c :: rest, acc =>
    if c == '"' then some (String.mk acc.reverse, rest)
    else if c == '\\' then
      match rest with
      | [] => Option.none
      | e :: rest2 =>
        if e == '"' then jStrAux rest2 ('"' :: acc)
        else if e == '\\' then jStrAux rest2 ('\\' :: acc)
        else if e == '/' then jStrAux rest2 ('/' :: acc)
        else if e == 'b' then jStrAux rest2 ('\x08' :: acc)
        else if e == 'f' then jStrAux rest2 ('\x0c' :: acc)
        else if e == 'n' then jStrAux rest2 ('\n' :: acc)
        else if e == 'r' then jStrAux rest2 ('\r' :: acc)
        else if e == 't' then jStrAux rest2 ('\t' :: acc)
        else if e == 'u' then
          match rest2 with
          | a :: b :: c2 :: d :: rest3 =>
            match hexVal a, hexVal b, hexVal c2, hexVal d with
            | some ha, some hb, some hc, some hd =>
                jStrAux rest3 (Char.ofNat (((ha * 16 + hb) * 16 + hc) * 16 + hd) :: acc)
            | _, _, _, _ => Option.none
          | _ => Option.none
        else Option.none
    else if c.toNat < 32 then Option.none
    else jStrAux rest (c :: acc)

/-- Numeric value of a digit list. -/
def natOfDigits (ds : List Char) : Nat :=
  ds.foldl (fun a c => a * 10 + (c.toNat - 48)) 0

/-- JSON integer part: `0` or a nonzero digit followed by digits. -/
def jIntPart (cs : List Char) : Option (List Char × List Char) :=
  match cs with
  | c :: rest =>
    if c == '0' then some ([c], rest)
    else if c.isDigit then
      some (c :: rest.takeWhile Char.isDigit, rest.dropWhile Char.isDigit)
    else Option.none
  | [] => Option.none

/-- JSON number token, following the scanner's regular expression: optional
fraction and exponent groups independently fail to match (leaving their
characters unconsumed) rather than failing the number. -/
def jNum (cs : List Char) : Option (PyVal × List Char) :=
  let sign : Bool × List Char :=
    match cs with
    | '-' :: rest => (true, rest)
    | _ => (false, cs)
  match jIntPart sign.2 with
  | Option.none => Option.none
  | some (ids, r1) =>
    let frac : List Char × List Char :=
      match r1 with
      | '.' :: rest =>
          if (rest.takeWhile Char.isDigit).isEmpty then ([], r1)
          else (rest.takeWhile Char.isDigit, rest.dropWhile Char.isDigit)
      | _ => ([], r1)
    let fds := frac.1
    let expPart : Option (Bool × Nat) × List Char :=
      match frac.2 with
      | c :: rest =>
        if c == 'e' || c == 'E' then
          let se : Bool × List Char :=
            match rest with
            | '+' :: r => (false, r)
            | '-' :: r => (true, r)
            | _ => (false, rest)
          if (se.2.takeWhile Char.isDigit).isEmpty then (Option.none, frac.2)
          else (some (se.1, natOfDigits (se.2.takeWhile Char.isDigit)),
                se.2.dropWhile Char.isDigit)
        else (Option.none, frac.2)
      | [] => (Option.none, frac.2)
    if fds.isEmpty && expPart.1.isNone then
      some (PyVal.int (if sign.1 then -(natOfDigits ids : Int) else (natOfDigits ids : Int)),
            expPart.2)
    else
      let base : Rat := (natOfDigits (ids ++ fds) : Nat)
      let q0 : Rat := base / (10 : Rat) ^ fds.length
      let q1 : Rat :=
        match expPart.1 with
        | Option.none => q0
        | some (eneg, e) => if eneg then q0 / (10 : Rat) ^ e else q0 * (10 : Rat) ^ e
      some (PyVal.float (if sign.1 then -q1 else q1), expPart.2)

/-- States of the JSON parsing machine. -/
inductive JMode where
  | value : JMode
  | objKey : List (String × PyVal) → Bool → JMode
  | objSep : List (String × PyVal) → JMode
  | arrVal : List PyVal → Bool → JMode
  | arrSep : List PyVal → JMode

/-- The JSON parsing machine, structural on fuel.  Duplicate object keys keep
the later value at the original position, as CPython's dict does. -/
def jRun : Nat → JMode → List Char → Option (PyVal × List Char)
  | 0, _, _ => Option.none
  | fuel + 1, JMode.value, cs =>
    match jSkip cs with
    | [] => Option.none
    | c :: rest =>
      if c == lbrace then jRun fuel (JMode.objKey [] true) rest
      else if c == '[' then jRun fuel (JMode.arrVal [] true) rest
      else if c == '"' then
        match jStrAux rest [] with
        | some (s, r) => some (PyVal.str s, r)
        | Option.none => Option.none
      else if c == 't' then
        match rest with
        | 'r' :: 'u' :: 'e' :: r => some (PyVal.bool true, r)
        | _ => Option.none
      else if c == 'f' then
        match rest with
        | 'a' :: 'l' :: 's' :: 'e' :: r => some (PyVal.bool false, r)
        | _ => Option.none
      else if c == 'n' then
        match rest with
        | 'u' :: 'l' :: 'l' :: r => some (PyVal.none, r)
        | _ => Option.none
      else jNum (c :: rest)
  | fuel + 1, JMode.objKey acc first, cs =>
    match jSkip cs with
    | [] => Option.none
    | c :: rest =>
      if first && c == rbrace then some (PyVal.dict acc, rest)
      else if c == '"' then
        match jStrAux rest [] with
        | some (k, r1) =>
          match jSkip r1 with
          | ':' :: r2 =>
            match jRun fuel JMode.value r2 with
            | some (v, r3) => jRun fuel (JMode.objSep (assocInsert acc k v)) r3
            | Option.none => Option.none
          | _ => Option.none
        | Option.none => Option.none
      else Option.none
  | fuel + 1, JMode.objSep acc, cs =>
    match jSkip cs with
    | [] => Option.none
    | c :: rest =>
      if c == rbrace then some (PyVal.dict acc, rest)
      else if c == ',' then jRun fuel (JMode.objKey acc false) rest
      else Option.none
  | fuel + 1, JMode.arrVal acc first, cs =>
    match jSkip cs with
    | [] => Option.none
    | c :: rest =>
      if first && c == ']' then some (PyVal.list acc.reverse, rest)
      else
        match jRun fuel JMode.value (c :: rest) with
        | some (v, r1) => jRun fuel (JMode.arrSep (v :: acc)) r1
        | Option.none => Option.none
  | fuel + 1, JMode.arrSep acc, cs =>
    match jSkip cs with
    | [] => Option.none
    | c :: rest =>
      if c == ']' then some (PyVal.list acc.reverse, rest)
      else if c == ',' then jRun fuel (JMode.arrVal acc false) rest
      else Option.none

/-- `json.loads` on a character list: parse one value and require only
whitespace to remain. -/
def jsonLoadsList (cs : List Char) : Option PyVal :=
  match jRun (2 * cs.length + 8) JMode.value cs with
  | some (v, rest) => if (jSkip rest).isEmpty then some v else Option.none
  | Option.none => Option.none

/-- Model of Python `json.loads` on a string. -/
def jsonLoads (s : String) : Option PyVal :=
  jsonLoadsList s.data

/-! ### The noisy-text extractor (`nessus_verifier.py` lines 87-138) -/

/-- Model of `_strip_code_fences` (nessus_verifier.py lines 87-100): strip,
drop an opening ``` fence up to the first newline, drop a trailing ```
fence, strip again. -/
def stripCodeFences (s : String) : String :=
  let text := pythonStrip s
  if lStarts "```".data text.data then
    let d := text.data
    let t1 : List Char :=
      match d.findIdx? (fun c => c == '\n') with
      | some i => d.drop (i + 1)
      | Option.none => d
    let t2 : List Char :=
      if lEnds "```".data t1 then t1.take (t1.length - 3) else t1
    String.mk (stripChars t2)
  else pythonStrip text

/-- The fallback scan of `_extract_json_object` (nessus_verifier.py lines
123-136), verbatim: from the first `\x7b` at index `start`, walk the text
incrementing depth on every `\x7b` and decrementing on every `\x7d` — with no
tracking of string-literal state — and each time depth returns to zero try
`json.loads` on the slice `cleaned[start : i + 1]`; on failure keep walking
(`start` is never advanced). -/
def braceScanGo (cleaned : List Char) (start : Nat) :
    List Char → Nat → Int → Option PyVal
  | [], _, _ => Option.none
  | c :: rest, i, depth =>
    if c == lbrace then braceScanGo cleaned start rest (i + 1) (depth + 1)
    else if c == rbrace then
      let depth' := depth - 1
      if depth' == 0 then
        match jsonLoadsList ((cleaned.take (i + 1)).drop start) with
        | some v => some v
        | Option.none => braceScanGo cleaned start rest (i + 1) depth'
      else braceScanGo cleaned start rest (i + 1) depth'
    else braceScanGo cleaned start rest (i + 1) depth

/-- Model of `_extract_json_object` (nessus_verifier.py lines 102-138) on
string input: strip fences, try a direct `json.loads`, then fall back to the
balanced-brace scan; the two `ValueError` messages of the source become the
two `Except.error` payloads. -/
def extractJsonObject (text : String) : Except String PyVal :=
  let cleaned := stripCodeFences text
  match jsonLoads cleaned with
  | some v => Except.ok v
  | Option.none =>
    match cleaned.data.findIdx? (fun c => c == lbrace) with
    | Option.none => Except.error "No JSON object found in model output"
    | some start =>
      match braceScanGo cleaned.data start (cleaned.data.drop start) start 0 with
      | some v => Except.ok v
      | Option.none => Except.error "Failed to parse JSON from model output"

/-- C1: the claim says the brace-depth scan is quote-aware, so that for every
text containing a well-formed object whose string values contain braces —
including when the object is embedded in surrounding prose — `extract`
recovers the object.  The code's scan (nessus_verifier.py lines 123-136)
tracks no string-literal state: on the input `xx \x7b"a": "\x7d"\x7d`, which
embeds the well-formed object `\x7b"a": "\x7d"\x7d` after prose, the `\x7d`
inside the quoted string drives the depth to zero early, the truncated
candidate fails to parse, and the call raises `ValueError` — the code
contradicts the spec's explicit quote-awareness requirement.  The second
conjunct records that the claim's own concrete example does succeed, but only
because the direct `json.loads` fast path (line 115) parses it before the
fallback scan runs. -/
theorem C1_brace_scan_not_quote_aware :
    extractJsonObject "xx \x7b\"a\": \"\x7d\"\x7d"
      = Except.error "Failed to parse JSON from model output" ∧
    extractJsonObject "\x7b\"a\": \"b \x7b c \x7d d\"\x7d"
      = Except.ok (PyVal.dict [("a", PyVal.str "b \x7b c \x7d d")]) := by
  constructor
  · rfl
  · rfl

/-- C2: the claim says that when the first balanced candidate span fails to
parse, `extract` continues from the next opening brace and returns a later
well-formed object, e.g. for `\x7boops\x7d \x7b"a":1\x7d`.  In the code the
loop does keep walking, but `start` is never advanced (nessus_verifier.py
line 131 always slices from the first `\x7b`), so every retry candidate
still contains the malformed prefix and never parses: the call raises
`ValueError` instead of returning the later object.  The second conjunct
records that the later object on its own is valid JSON, so a scan restarting
at the next opening brace would have recovered it. -/
theorem C2_later_object_not_recovered :
    extractJsonObject "\x7boops\x7d \x7b\"a\":1\x7d"
      = Except.error "Failed to parse JSON from model output" ∧
    jsonLoads "\x7b\"a\":1\x7d" = some (PyVal.dict [("a", PyVal.int 1)]) := by
  constructor
  · rfl
  · rfl

/-! ### Dynamic-Python helpers used by the normalizer and merge engine -/

/-- Except-monad `mapM` over a list, written out so it unfolds structurally. -/
def mapME {α β : Type} (f : α → Except String β) : List α → Except String (List β)
  | [] => Except.ok []
  | x :: xs =>
    match f x with
    | Except.error e => Except.error e
    | Except.ok y =>
      match mapME f xs with
      | Except.error e => Except.error e
      | Except.ok ys => Except.ok (y :: ys)

/-- Except-monad left fold over a list, written out so it unfolds structurally. -/
def foldlME {α β : Type} (f : β → α → Except String β) : β → List α → Except String β
  | b, [] => Except.ok b
  | b, x :: xs =>
    match f b x with
    | Except.error e => Except.error e
    | Except.ok b' => foldlME f b' xs

/-- Python attribute access `v.get(...)`: raises `AttributeError` unless `v`
is a dict. -/
def asDict : PyVal → Except String (List (String × PyVal))
  | PyVal.dict m => Except.ok m
  | _ => Except.error "AttributeError: get"

/-- Python `v[0]`: first element of a list, first character of a string
(as a one-character string); anything else raises. -/
def pyIndex0 : PyVal → Except String PyVal
  | PyVal.list (x :: _) => Except.ok x
  | PyVal.list [] => Except.error "IndexError"
  | PyVal.str s =>
    match s.data with
    | c :: _ => Except.ok (PyVal.str (String.mk [c]))
    | [] => Except.error "IndexError"
  | _ => Except.error "TypeError: not subscriptable"

/-- Python `v[:k]`: slices lists and strings, raises on anything else. -/
def pySliceV (k : Nat) : PyVal → Except String PyVal
  | PyVal.list xs => Except.ok (PyVal.list (xs.take k))
  | PyVal.str s => Except.ok (PyVal.str (String.mk (s.data.take k)))
  | _ => Except.error "TypeError: not subscriptable"

/-- Python `for x in v`: elements of a list, characters of a string, keys of
a dict; anything else raises `TypeError`. -/
def pyIterE : PyVal → Except String (List PyVal)
  | PyVal.list xs => Except.ok xs
  | PyVal.str s => Except.ok (s.data.map (fun c => PyVal.str (String.mk [c])))
  | PyVal.dict m => Except.ok (m.map (fun p => PyVal.str p.1))
  | _ => Except.error "TypeError: not iterable"

/-- Python `v == "lit"` for a string literal: true exactly for the equal
string (equality with a non-string value is `False`, it does not raise). -/
def pyEqStr (v : PyVal) (s : String) : Bool :=
  match v with
  | PyVal.str t => t == s
  | _ => false

/-! ### The decision-schema normalizer (`nessus_verifier.py` lines 140-221,
272-283, 300-326) -/

/-- The `status_mapping` dict literal (nessus_verifier.py lines 147-152). -/
def statusMapping : List (String × String) :=
  [("CONFIRMED_VULNERABLE", "confirmed"), ("NOT_EXPLOITABLE", "rejected"),
   ("FALSE_POSITIVE", "rejected"), ("ACCESS_LIMITED", "uncertain")]

/-- `status_mapping.get(v, dflt)` (nessus_verifier.py line 159): dict lookup
with a default; an unhashable key (list/dict) raises `TypeError`, any other
non-matching key falls back to the default. -/
def statusMappingGetE (v : PyVal) (dflt : String) : Except String String :=
  match v with
  | PyVal.list _ => Except.error "TypeError: unhashable type"
  | PyVal.dict _ => Except.error "TypeError: unhashable type"
  | PyVal.str s =>
      Except.ok (((statusMapping.find? (fun p => p.1 == s)).map Prod.snd).getD dflt)
  | _ => Except.ok dflt

/-- Model of `_build_rationale_from_verification` (nessus_verifier.py lines
175-196). -/
def buildRationale (result : List (String × PyVal)) : Except String String := do
  let status := dictGetD result "verification_status" (PyVal.str "UNCERTAIN")
  let plugin_name := dictGetD result "plugin_name" (PyVal.str "Unknown")
  let parts0 := [pyStr plugin_name ++ " - " ++ pyStr status]
  let parts ←
    if pyEqStr status "CONFIRMED_VULNERABLE" then do
      let impact ← asDict (dictGetD result "impact_assessment" (PyVal.dict []))
      let parts1 :=
        if pyTruthy (dictGetD impact "business_risk" PyVal.none) then
          parts0 ++ ["Business risk: " ++ pyStr (dictGetD impact "business_risk" PyVal.none)]
        else parts0
      let ee ← asDict (dictGetD result "exploitation_evidence" (PyVal.dict []))
      let exploits := dictGetD ee "successful_exploits" (PyVal.list [])
      if pyTruthy exploits then do
        let first ← pyIndex0 exploits
        let fd ← asDict first
        pure (parts1 ++
          ["Exploitation confirmed: " ++ pyStr (dictGetD fd "exploit_type" (PyVal.str "Unknown"))])
      else pure parts1
    else if pyEqStr status "FALSE_POSITIVE" then do
      let ee ← asDict (dictGetD result "exploitation_evidence" (PyVal.dict []))
      let failed := dictGetD ee "failed_exploits" (PyVal.list [])
      if pyTruthy failed then do
        let first ← pyIndex0 failed
        let fd ← asDict first
        pure (parts0 ++
          ["Testing failed: " ++ pyStr (dictGetD fd "reason_failed" (PyVal.str "Could not reproduce"))])
      else pure parts0
    else pure parts0
  pure (String.intercalate ". " parts)

/-- Model of `_extract_tests_from_verification` (nessus_verifier.py lines
198-221). -/
def extractTests (result : List (String × PyVal)) : Except String (List String) := do
  let td ← asDict (dictGetD result "testing_executed" (PyVal.dict []))
  let primary := dictGetD td "primary_tests" (PyVal.dict [])
  let tests0 : List String :=
    match primary with
    | PyVal.dict pm =>
        if pyTruthy (dictGetD pm "command" PyVal.none) then
          ["Primary: " ++ pyStr (dictGetD pm "command" PyVal.none)]
        else []
    | _ => []
  let explSlice ← pySliceV 2 (dictGetD td "exploitation_attempts" (PyVal.list []))
  let attempts ← pyIterE explSlice
  let tests1 ← foldlME (fun acc a => do
      let am ← asDict a
      pure (if pyTruthy (dictGetD am "command" PyVal.none) then
              acc ++ ["Exploit test: " ++ pyStr (dictGetD am "command" PyVal.none)]
            else acc)) tests0 attempts
  let manSlice ← pySliceV 1 (dictGetD td "manual_verification" (PyVal.list []))
  let procs ← pyIterE manSlice
  let tests2 ← foldlME (fun acc p => do
      let pm ← asDict p
      pure (if pyTruthy (dictGetD pm "procedure" PyVal.none) then
              acc ++ ["Manual: " ++ pyStr (dictGetD pm "procedure" PyVal.none)]
            else acc)) tests1 procs
  pure (tests2.take 5)

/-- One canonical decision record as built by the dict literal at
nessus_verifier.py lines 154-164. -/
structure DecisionD where
  host : PyVal
  plugin_id : PyVal
  port : PyVal
  protocol : PyVal
  status : String
  confidence : PyVal
  score : PyVal
  rationale : String
  recommended_tests : List String

/-- Model of the per-entry body of `_convert_verification_to_decisions`
(nessus_verifier.py lines 145-165): one `result` dict becomes one decision.
Possible raises keep their Python order: the `status_mapping.get` lookup,
then rationale synthesis, then test extraction. -/
def convertEntry (result : List (String × PyVal)) : Except String DecisionD := do
  let status ← statusMappingGetE
      (dictGetD result "verification_status" (PyVal.str "uncertain")) "uncertain"
  let rationale ← buildRationale result
  let tests ← extractTests result
  pure { host := dictGetD result "host" (PyVal.str "")
         plugin_id := dictGetD result "plugin_id" (PyVal.str "")
         port := dictGetD result "port" (PyVal.str "0")
         protocol := dictGetD result "protocol" (PyVal.str "tcp")
         status := status
         confidence := dictGetD result "confidence_level" (PyVal.float ((1 : Rat) / 2))
         score := dictGetD result "verified_score" (PyVal.int 50)
         rationale := rationale
         recommended_tests := tests }

/-- The decision record as the dict the code appends to `decisions`. -/
def decisionToPy (d : DecisionD) : PyVal :=
  PyVal.dict [("host", d.host), ("plugin_id", d.plugin_id), ("port", d.port),
    ("protocol", d.protocol), ("status", PyVal.str d.status),
    ("confidence", d.confidence), ("score", d.score),
    ("rationale", PyVal.str d.rationale),
    ("recommended_tests", PyVal.list (d.recommended_tests.map PyVal.str))]

/-- Model of `_convert_verification_to_decisions` (nessus_verifier.py lines
140-173). -/
def convertVerificationToDecisions (vr : List (String × PyVal)) :
    Except String PyVal := do
  let entries ← pyIterE (dictGetD vr "verification_results" (PyVal.list []))
  let decisions ← mapME (fun e => do
      let em ← asDict e
      let d ← convertEntry em
      pure (decisionToPy d)) entries
  let es ← asDict (dictGetD vr "executive_summary" (PyVal.dict []))
  pure (PyVal.dict [("decisions", PyVal.list decisions),
    ("meta", PyVal.dict [("scoring_profile", PyVal.str "verification_based"),
      ("notes", PyVal.str ("Results from comprehensive verification testing. "
        ++ pyStr (dictGetD es "total_tested" (PyVal.int 0)) ++ " findings tested."))])])

/-- Model of the per-entry body of `_convert_recommendations_to_decisions`
(nessus_verifier.py lines 305-318), including the chained `.replace` status
normalization. -/
def convertRecEntry (rec : List (String × PyVal)) : Except String PyVal := do
  let risk ← asDict (dictGetD rec "risk_assessment" (PyVal.dict []))
  let status ←
    match dictGetD risk "status" (PyVal.str "needs_verification") with
    | PyVal.str s =>
        Except.ok (((s.replace "needs_verification" "uncertain").replace
          "likely_false_positive" "rejected").replace "confirmed_by_analysis" "confirmed")
    | _ => Except.error "AttributeError: replace"
  let tsdM ← asDict (dictGetD rec "testing_strategy" (PyVal.dict []))
  let tests ← pySliceV 3 (dictGetD tsdM "primary_tests" (PyVal.list []))
  let ea ← asDict (dictGetD rec "evidence_analysis" (PyVal.dict []))
  let rationale := pyStr (dictGetD rec "plugin_name" (PyVal.str "Unknown")) ++ " - "
      ++ pyStr (dictGetD risk "status" (PyVal.str "uncertain")) ++ ". "
      ++ pyStr (dictGetD ea "plugin_output_summary" (PyVal.str ""))
  pure (PyVal.dict [("host", dictGetD rec "host" (PyVal.str "")),
    ("plugin_id", dictGetD rec "plugin_id" (PyVal.str "")),
    ("port", dictGetD rec "port" (PyVal.str "0")),
    ("protocol", dictGetD rec "protocol" (PyVal.str "tcp")),
    ("status", PyVal.str status),
    ("confidence", dictGetD risk "confidence" (PyVal.float ((1 : Rat) / 2))),
    ("score", dictGetD risk "adjusted_score" (dictGetD risk "initial_score" (PyVal.int 50))),
    ("rationale", PyVal.str rationale),
    ("recommended_tests", tests)])

/-- Model of `_convert_recommendations_to_decisions` (nessus_verifier.py
lines 300-326). -/
def convertRecommendationsToDecisions (rd : List (String × PyVal)) :
    Except String PyVal := do
  let recs ← pyIterE (dictGetD rd "recommendations" (PyVal.list []))
  let decisions ← mapME (fun r => do
      let rm ← asDict r
      convertRecEntry rm) recs
  pure (PyVal.dict [("decisions", PyVal.list decisions),
    ("meta", PyVal.dict [("scoring_profile", PyVal.str "recommendation_based"),
      ("notes", PyVal.str ("Based on recommendations analysis. "
        ++ toString decisions.length ++ " findings analyzed. Verification phase incomplete."))])])

/-- The fallback decision object of verify_nessus_report (nessus_verifier.py
line 283). -/
def fallbackDecisions : PyVal :=
  PyVal.dict [("decisions", PyVal.list []),
    ("meta", PyVal.dict [("notes", PyVal.str "Could not parse verification results properly")])]

/-- Model of the shape-detection chain of `verify_nessus_report`
(nessus_verifier.py lines 272-283): `verification_results` first, then
`recommendations`, then `decisions`, else the fallback empty decision set. -/
def resolveDecisions (parsed_obj : PyVal) : Except String PyVal :=
  match parsed_obj with
  | PyVal.dict m =>
    if (dictLookup m "verification_results").isSome then
      convertVerificationToDecisions m
    else if (dictLookup m "recommendations").isSome then
      convertRecommendationsToDecisions m
    else if (dictLookup m "decisions").isSome then Except.ok (PyVal.dict m)
    else Except.ok fallbackDecisions
  | _ => Except.ok fallbackDecisions

/-- The status table exactly as the claim words it (spec-side definition,
for comparison with the code's computation): CONFIRMED_VULNERABLE→confirmed,
NOT_EXPLOITABLE→rejected, FALSE_POSITIVE→rejected, ACCESS_LIMITED→uncertain,
anything else→uncertain. -/
def specStatusTable (v : PyVal) : String :=
  if pyEqStr v "CONFIRMED_VULNERABLE" then "confirmed"
  else if pyEqStr v "NOT_EXPLOITABLE" then "rejected"
  else if pyEqStr v "FALSE_POSITIVE" then "rejected"
  else if pyEqStr v "ACCESS_LIMITED" then "uncertain"
  else "uncertain"

/-- Destructuring principle for Except bind. -/
theorem bindOk {α β : Type} {x : Except String α} {f : α → Except String β} {b : β} :
    x >>= f = Except.ok b ↔ ∃ a, x = Except.ok a ∧ f a = Except.ok b := by
  cases x with
  | error e => simp [Bind.bind, Except.bind]
  | ok a => simp [Bind.bind, Except.bind]

/-- The code's dict lookup agrees with the claim's closed table whenever the
lookup returns at all. -/
theorem statusMappingGetE_spec (v : PyVal) (s : String)
    (h : statusMappingGetE v "uncertain" = Except.ok s) : s = specStatusTable v := by
  cases v with
  | list xs => simp [statusMappingGetE] at h
  | dict m => simp [statusMappingGetE] at h
  | none => simp [statusMappingGetE] at h; simp [specStatusTable, pyEqStr, h]
  | bool b => simp [statusMappingGetE] at h; simp [specStatusTable, pyEqStr, h]
  | int n => simp [statusMappingGetE] at h; simp [specStatusTable, pyEqStr, h]
  | float q => simp [statusMappingGetE] at h; simp [specStatusTable, pyEqStr, h]
  | str t =>
    by_cases h1 : t = "CONFIRMED_VULNERABLE"
    · subst h1; simp [statusMappingGetE, statusMapping, List.find?] at h
      simp [specStatusTable, pyEqStr, h]
    · by_cases h2 : t = "NOT_EXPLOITABLE"
      · subst h2; simp [statusMappingGetE, statusMapping, List.find?] at h
        simp [specStatusTable, pyEqStr, h]
      · by_cases h3 : t = "FALSE_POSITIVE"
        · subst h3; simp [statusMappingGetE, statusMapping, List.find?] at h
          simp [specStatusTable, pyEqStr, h]
        · by_cases h4 : t = "ACCESS_LIMITED"
          · subst h4; simp [statusMappingGetE, statusMapping, List.find?] at h
            simp [specStatusTable, pyEqStr, h]
          · have e1 : (("CONFIRMED_VULNERABLE" : String) == t) = false :=
              beq_eq_false_iff_ne.mpr (fun he => h1 he.symm)
            have e2 : (("NOT_EXPLOITABLE" : String) == t) = false :=
              beq_eq_false_iff_ne.mpr (fun he => h2 he.symm)
            have e3 : (("FALSE_POSITIVE" : String) == t) = false :=
              beq_eq_false_iff_ne.mpr (fun he => h3 he.symm)
            have e4 : (("ACCESS_LIMITED" : String) == t) = false :=
              beq_eq_false_iff_ne.mpr (fun he => h4 he.symm)
            have f1 : (t == "CONFIRMED_VULNERABLE") = false :=
              beq_eq_false_iff_ne.mpr h1
            have f2 : (t == "NOT_EXPLOITABLE") = false :=
              beq_eq_false_iff_ne.mpr h2
            have f3 : (t == "FALSE_POSITIVE") = false :=
              beq_eq_false_iff_ne.mpr h3
            have f4 : (t == "ACCESS_LIMITED") = false :=
              beq_eq_false_iff_ne.mpr h4
            simp [statusMappingGetE, statusMapping, List.find?, e1, e2, e3, e4] at h
            simp [specStatusTable, pyEqStr, f1, f2, f3, f4, h]

/-- C6: for every `verification_results` entry that yields a decision, the
decision's status is exactly the claim's closed table applied to the entry's
`verification_status` value (nessus_verifier.py lines 147-159); in
particular an entry whose `verification_status` is `FALSE_POSITIVE` yields a
decision with status `"rejected"`. -/
theorem C6_status_table :
    (∀ (m : List (String × PyVal)) (v : PyVal) (d : DecisionD),
        dictLookup m "verification_status" = some v →
        convertEntry m = Except.ok d →
        d.status = specStatusTable v) ∧
    (convertEntry [("verification_status", PyVal.str "FALSE_POSITIVE")]).map
        DecisionD.status = Except.ok "rejected" := by
  constructor
  · intro m v d hv hd
    have hget : dictGetD m "verification_status" (PyVal.str "uncertain") = v := by
      simp [dictGetD, hv]
    rw [convertEntry] at hd
    rw [hget] at hd
    rw [bindOk] at hd
    obtain ⟨s, hs, hd⟩ := hd
    rw [bindOk] at hd
    obtain ⟨r, _, hd⟩ := hd
    rw [bindOk] at hd
    obtain ⟨ts, _, hd⟩ := hd
    simp only [pure, Except.pure, Except.ok.injEq] at hd
    subst hd
    exact statusMappingGetE_spec v s hs
  · rfl

/-- Witness for C6: a concrete entry run through the theorem. -/
theorem C6_status_table_witness :
    (⟨PyVal.str "", PyVal.str "", PyVal.str "0", PyVal.str "tcp", "uncertain",
      PyVal.float ((1 : Rat) / 2), PyVal.int 50, "Unknown - ACCESS_LIMITED", []⟩ :
        DecisionD).status = specStatusTable (PyVal.str "ACCESS_LIMITED") :=
  C6_status_table.1 [("verification_status", PyVal.str "ACCESS_LIMITED")]
    (PyVal.str "ACCESS_LIMITED")
    ⟨PyVal.str "", PyVal.str "", PyVal.str "0", PyVal.str "tcp", "uncertain",
      PyVal.float ((1 : Rat) / 2), PyVal.int 50, "Unknown - ACCESS_LIMITED", []⟩
    rfl rfl

/-- C10: for every `verification_results` entry that yields a decision, the
absent-field defaults are exactly those of the `result.get` calls at
nessus_verifier.py lines 154-164: host and plugin_id default to `""`, port
to `"0"`, protocol to `"tcp"`, confidence_level to `0.5`, verified_score
to `50`. -/
theorem C10_entry_defaults :
    ∀ (m : List (String × PyVal)) (d : DecisionD), convertEntry m = Except.ok d →
      (dictLookup m "host" = Option.none → d.host = PyVal.str "") ∧
      (dictLookup m "plugin_id" = Option.none → d.plugin_id = PyVal.str "") ∧
      (dictLookup m "port" = Option.none → d.port = PyVal.str "0") ∧
      (dictLookup m "protocol" = Option.none → d.protocol = PyVal.str "tcp") ∧
      (dictLookup m "confidence_level" = Option.none →
        d.confidence = PyVal.float ((1 : Rat) / 2)) ∧
      (dictLookup m "verified_score" = Option.none → d.score = PyVal.int 50) := by
  intro m d hd
  rw [convertEntry] at hd
  rw [bindOk] at hd
  obtain ⟨s, hs, hd⟩ := hd
  rw [bindOk] at hd
  obtain ⟨r, hr, hd⟩ := hd
  rw [bindOk] at hd
  obtain ⟨ts, ht, hd⟩ := hd
  simp only [pure, Except.pure, Except.ok.injEq] at hd
  subst hd
  refine ⟨?_, ?_, ?_, ?_, ?_, ?_⟩ <;> intro h <;> simp [dictGetD, h]

/-- The decision produced from the empty entry dict (used by the C10
witness). -/
def emptyEntryDecision : DecisionD :=
  ⟨PyVal.str "", PyVal.str "", PyVal.str "0", PyVal.str "tcp", "uncertain",
    PyVal.float ((1 : Rat) / 2), PyVal.int 50, "Unknown - UNCERTAIN", []⟩

/-- Witness for C10: the empty entry, where every field is absent, receives
every default. -/
theorem C10_entry_defaults_witness :
    emptyEntryDecision.host = PyVal.str "" ∧
    emptyEntryDecision.plugin_id = PyVal.str "" ∧
    emptyEntryDecision.port = PyVal.str "0" ∧
    emptyEntryDecision.protocol = PyVal.str "tcp" ∧
    emptyEntryDecision.confidence = PyVal.float ((1 : Rat) / 2) ∧
    emptyEntryDecision.score = PyVal.int 50 := by
  have h := C10_entry_defaults [] emptyEntryDecision rfl
  exact ⟨h.1 rfl, h.2.1 rfl, h.2.2.1 rfl, h.2.2.2.1 rfl, h.2.2.2.2.1 rfl,
    h.2.2.2.2.2 rfl⟩

/-! ### An `xml.etree.ElementTree` model

`XElem` mirrors ET's `Element`: tag, attributes in document order, the text
before the first child, the children, and the tail text following the
element.  `parseXml` models `ET.parse` on the file's content for the
DTD-free, CDATA-free, non-namespaced documents the code and the theorems
deal with: comments and processing instructions are skipped (as ET's default
tree builder does), entity references are decoded, and character data around
skipped comments is merged.  `serE` models `ET.tostring`'s writer: an
element with neither truthy text nor children is emitted in the short
`<tag />` form. -/

structure XElem where
  tag : String
  attrs : List (String × String)
  text : Option String
  children : List XElem
  tail : Option String

/-- XML whitespace. -/
def xmlWs (c : Char) : Bool :=
  c == ' ' || c == '\t' || c == '\n' || c == '\r'

/-- Characters allowed in names (ASCII fragment). -/
def isNameChar (c : Char) : Bool :=
  c.isAlphanum || c == '_' || c == '-' || c == '.' || c == ':'

/-- Numeric value of a hex digit list. -/
def hexToNat (ds : List Char) : Nat :=
  ds.foldl (fun a c => a * 16 + ((hexVal c).getD 0)) 0

/-- Decode one entity reference (the part after `&`). -/
def decodeEntity (cs : List Char) : Option (Char × List Char) :=
  if lStarts "amp;".data cs then some ('&', cs.drop 4)
  else if lStarts "lt;".data cs then some ('<', cs.drop 3)
  else if lStarts "gt;".data cs then some ('>', cs.drop 3)
  else if lStarts "quot;".data cs then some ('"', cs.drop 5)
  else if lStarts "apos;".data cs then some ('\'', cs.drop 5)
  else if lStarts "#x".data cs then
    let hs := (cs.drop 2).takeWhile (fun c => (hexVal c).isSome)
    match (cs.drop 2).drop hs.length with
    | ';' :: rest => if hs.isEmpty then Option.none else some (Char.ofNat (hexToNat hs), rest)
    | _ => Option.none
  else if lStarts "#".data cs then
    let ds := (cs.drop 1).takeWhile Char.isDigit
    match (cs.drop 1).drop ds.length with
    | ';' :: rest => if ds.isEmpty then Option.none else some (Char.ofNat (natOfDigits ds), rest)
    | _ => Option.none
  else Option.none

/-- Accumulate character data (reversed) up to the next `<` or the end,
decoding entities; a bare `&` that is no entity reference is a parse error. -/
def scanTextF : Nat → List Char → List Char → Option (List Char × List Char)
  | 0, _, _ => Option.none
  | _ + 1, [], acc => some (acc, [])
  | fuel + 1, c :: rest, acc =>
    if c == '<' then some (acc, c :: rest)
    else if c == '&' then
      match decodeEntity rest with
      | some (ch, r) => scanTextF fuel r (ch :: acc)
      | Option.none => Option.none
    else scanTextF fuel rest (c :: acc)

/-- Attribute value up to the closing quote, decoding entities; a raw `<` is
rejected, as expat does. -/
def scanAttrValF : Nat → Char → List Char → List Char → Option (List Char × List Char)
  | 0, _, _, _ => Option.none
  | _ + 1, _, [], _ => Option.none
  | fuel + 1, q, c :: rest, acc =>
    if c == q then some (acc.reverse, rest)
    else if c == '<' then Option.none
    else if c == '&' then
      match decodeEntity rest with
      | some (ch, r) => scanAttrValF fuel q r (ch :: acc)
      | Option.none => Option.none
    else scanAttrValF fuel q rest (c :: acc)

/-- Parse the attribute list of a start tag (double- or single-quoted
values), stopping at the first character that cannot start a name. -/
def pAttrsF : Nat → List Char → List (String × String) →
    Option (List (String × String) × List Char)
  | 0, _, _ => Option.none
  | fuel + 1, cs, acc =>
    let cs1 := cs.dropWhile xmlWs
    match cs1 with
    | [] => some (acc, [])
    | c :: _ =>
      if isNameChar c then
        let nm := cs1.takeWhile isNameChar
        let r1 := (cs1.dropWhile isNameChar).dropWhile xmlWs
        match r1 with
        | '=' :: r2 =>
          match r2.dropWhile xmlWs with
          | '"' :: r4 =>
            match scanAttrValF (r4.length + 1) '"' r4 [] with
            | some (v, r5) => pAttrsF fuel r5 (acc ++ [(String.mk nm, String.mk v)])
            | Option.none => Option.none
          | '\'' :: r4 =>
            match scanAttrValF (r4.length + 1) '\'' r4 [] with
            | some (v, r5) => pAttrsF fuel r5 (acc ++ [(String.mk nm, String.mk v)])
            | Option.none => Option.none
          | _ => Option.none
        | _ => Option.none
      else some (acc, cs1)

/-- Skip forward past the first occurrence of `pat`. -/
def skipToF (pat : List Char) : Nat → List Char → Option (List Char)
  | 0, _ => Option.none
  | fuel + 1, cs =>
    match cs with
    | [] => Option.none
    | _ :: rest => if lStarts pat cs then some (cs.drop pat.length) else skipToF pat fuel rest

/-- States of the XML parsing machine: parse one element, or parse the
content of an open element (carrying tag, attributes, text, reversed
children, and the reversed character-data buffer). -/
inductive XMode where
  | elem : XMode
  | content : String → List (String × String) → Option String → List XElem →
      List Char → XMode

/-- Flush the character-data buffer: the first chunk becomes the element's
text, later chunks become the tail of the most recent child — exactly ET's
tree-builder behaviour. -/
def xFlush (txt : Option String) (kidsRev : List XElem) (buf : List Char) :
    Option String × List XElem :=
  if buf.isEmpty then (txt, kidsRev)
  else
    match kidsRev with
    | [] => (some (String.mk buf.reverse), [])
    | k :: ks => (txt, { k with tail := some (String.mk buf.reverse) } :: ks)

/-- The XML parsing machine, structural on fuel. -/
def xRun : Nat → XMode → List Char → Option (XElem × List Char)
  | 0, _, _ => Option.none
  | fuel + 1, XMode.elem, cs =>
    match cs with
    | '<' :: rest =>
      let nm := rest.takeWhile isNameChar
      if nm.isEmpty then Option.none
      else
        match pAttrsF (rest.length + 1) (rest.dropWhile isNameChar) [] with
        | Option.none => Option.none
        | some (attrs, r2) =>
          match r2.dropWhile xmlWs with
          | '/' :: '>' :: r4 =>
              some ({ tag := String.mk nm, attrs := attrs, text := Option.none,
                      children := [], tail := Option.none }, r4)
          | '>' :: r4 =>
              xRun fuel (XMode.content (String.mk nm) attrs Option.none [] []) r4
          | _ => Option.none
    | _ => Option.none
  | fuel + 1, XMode.content tag attrs txt kidsRev buf, cs =>
    match scanTextF (cs.length + 1) cs buf with
    | Option.none => Option.none
    | some (buf', rest) =>
      match rest with
      | '<' :: '/' :: r1 =>
        let nm := r1.takeWhile isNameChar
        if String.mk nm == tag then
          match (r1.dropWhile isNameChar).dropWhile xmlWs with
          | '>' :: r2 =>
            let fl := xFlush txt kidsRev buf'
            some ({ tag := tag, attrs := attrs, text := fl.1,
                    children := fl.2.reverse, tail := Option.none }, r2)
          | _ => Option.none
        else Option.none
      | '<' :: '!' :: '-' :: '-' :: r1 =>
        match skipToF "-->".data (r1.length + 1) r1 with
        | some r2 => xRun fuel (XMode.content tag attrs txt kidsRev buf') r2
        | Option.none => Option.none
      | '<' :: '?' :: r1 =>
        match skipToF "?>".data (r1.length + 1) r1 with
        | some r2 => xRun fuel (XMode.content tag attrs txt kidsRev buf') r2
        | Option.none => Option.none
      | '<' :: _ =>
        let fl := xFlush txt kidsRev buf'
        match xRun fuel XMode.elem rest with
        | some (child, r2) =>
            xRun fuel (XMode.content tag attrs fl.1 (child :: fl.2) []) r2
        | Option.none => Option.none
      | _ => Option.none

/-- Skip the prolog (or trailing misc): whitespace, `<?...?>` declarations
and processing instructions, comments. -/
def skipPrologF : Nat → List Char → List Char
  | 0, cs => cs
  | fuel + 1, cs =>
    let cs1 := cs.dropWhile xmlWs
    if lStarts "<?".data cs1 then
      match skipToF "?>".data (cs1.length + 1) (cs1.drop 2) with
      | some r => skipPrologF fuel r
      | Option.none => cs1
    else if lStarts "<!--".data cs1 then
      match skipToF "-->".data (cs1.length + 1) (cs1.drop 4) with
      | some r => skipPrologF fuel r
      | Option.none => cs1
    else cs1

/-- Model of `ET.parse` on the document's content. -/
def parseXml (s : String) : Option XElem :=
  let cs := skipPrologF (s.data.length + 2) s.data
  match xRun (2 * cs.length + 8) XMode.elem cs with
  | some (root, rest) =>
      if (skipPrologF (rest.length + 2) rest).isEmpty then some root else Option.none
  | Option.none => Option.none

/-- ET's `_escape_cdata` (text content escaping). -/
def escText (s : String) : String :=
  String.join (s.data.map (fun c =>
    if c == '&' then "&amp;" else if c == '<' then "&lt;"
    else if c == '>' then "&gt;" else String.mk [c]))

/-- ET's `_escape_attrib` (attribute value escaping). -/
def escAttr (s : String) : String :=
  String.join (s.data.map (fun c =>
    if c == '&' then "&amp;" else if c == '<' then "&lt;"
    else if c == '>' then "&gt;" else if c == '"' then "&quot;"
    else if c == '\r' then "&#13;" else if c == '\n' then "&#10;"
    else if c == '\t' then "&#09;" else String.mk [c]))

/-- Python truthiness of an optional text value (`None` and `""` are falsy). -/
def optTextTruthy : Option String → Bool
  | Option.none => false
  | some t => t != ""

/-- Model of ET's element writer: short `<tag />` form when the element has
neither truthy text nor children, long form otherwise, the truthy tail
appended after the element. -/
def serE : Nat → XElem → String
  | 0, _ => ""
  | fuel + 1, e =>
    let attrsS := String.join (e.attrs.map (fun p =>
      " " ++ p.1 ++ "=\"" ++ escAttr p.2 ++ "\""))
    let tailS : String :=
      match e.tail with
      | some t => if t == "" then "" else escText t
      | Option.none => ""
    if optTextTruthy e.text || !e.children.isEmpty then
      let txtS : String :=
        match e.text with
        | some t => if t == "" then "" else escText t
        | Option.none => ""
      "<" ++ e.tag ++ attrsS ++ ">" ++ txtS
        ++ String.join (e.children.map (serE fuel)) ++ "</" ++ e.tag ++ ">" ++ tailS
    else "<" ++ e.tag ++ attrsS ++ " />" ++ tailS

/-- `ET.tostring(root, encoding="utf-8", xml_declaration=True)` body writer
(depth-bounded well beyond every tree a theorem exercises). -/
def serializeXml (e : XElem) : String := serE 64 e

/-- The document declaration ET emits for `encoding="utf-8"`. -/
def xmlDecl : String := "<?xml version='1.0' encoding='utf-8'?>\n"

/-- `elem.get(k)`: first (unique) attribute with the key. -/
def attrGet (e : XElem) (k : String) : Option String :=
  (e.attrs.find? (fun p => p.1 == k)).map Prod.snd

/-- `elem.get(k) or dflt`: attribute lookup with or-defaulting, where both a
missing attribute and an empty value fall back. -/
def attrOrFalsy (e : XElem) (k dflt : String) : String :=
  match attrGet e k with
  | some s => if s == "" then dflt else s
  | Option.none => dflt

/-- `elem.find(tag)`: first direct child with the tag. -/
def findChild (e : XElem) (tag : String) : Option XElem :=
  e.children.find? (fun c => c.tag == tag)

/-- `elem.findall(tag)`: all direct children with the tag, in order. -/
def findAllChildren (e : XElem) (tag : String) : List XElem :=
  e.children.filter (fun c => c.tag == tag)

/-! ### `nessus_tools.py`: the report parser -/

/-- Model of `_safe_text` (nessus_tools.py lines 9-10): empty string when the
element is missing or has no text, otherwise the stripped text. -/
def safeText : Option XElem → String
  | Option.none => ""
  | some e =>
    match e.text with
    | Option.none => ""
    | some t => pythonStrip t

/-- Model of `_split_csv` (nessus_tools.py lines 24-27). -/
def splitCsv (text : String) : List String :=
  if text == "" then []
  else (((text.replace ";" ",").splitOn ",").map pythonStrip).filter (fun x => x != "")

/-- Model of `_tags_to_dict` (nessus_tools.py lines 13-21): later tags with
the same name overwrite, empty names are skipped. -/
def tagsToDict : Option XElem → List (String × String)
  | Option.none => []
  | some hp =>
    (findAllChildren hp "tag").foldl (fun props tg =>
      let name := (attrGet tg "name").getD ""
      if name == "" then props
      else assocInsert props name (safeText (some tg))) []

/-- Digit run with single interior underscores, continuing an accumulator
(PEP 515 syntax accepted by `int()` / `float()`). -/
def digitsUndAux : List Char → Nat → Option Nat
  | [], acc => some acc
  | '_' :: c :: rest, acc =>
      if c.isDigit then digitsUndAux rest (acc * 10 + (c.toNat - 48)) else Option.none
  | c :: rest, acc =>
      if c.isDigit then digitsUndAux rest (acc * 10 + (c.toNat - 48)) else Option.none

/-- Nonempty digit run with single interior underscores. -/
def digitsUnd : List Char → Option Nat
  | c :: rest => if c.isDigit then digitsUndAux rest (c.toNat - 48) else Option.none
  | [] => Option.none

/-- Model of Python `int(s)`: strip, optional sign, nonempty digits. -/
def pyIntParse (s : String) : Option Int :=
  match stripChars s.data with
  | '+' :: rest => (digitsUnd rest).map (fun n => (n : Int))
  | '-' :: rest => (digitsUnd rest).map (fun n => -(n : Int))
  | cs => (digitsUnd cs).map (fun n => (n : Int))

/-- Values of Python `float`: finite (exact rational), signed infinity, NaN. -/
inductive PyFloat where
  | finite : Rat → PyFloat
  | infinite : Bool → PyFloat
  | nan : PyFloat
deriving DecidableEq

/-- Greedy digit run with single interior underscores, also returning the
digit count (for fraction scaling); stops before the first foreign character. -/
def digRunAux : List Char → Nat → Nat → Option (Nat × Nat × List Char)
  | [], v, k => some (v, k, [])
  | '_' :: c :: rest, v, k =>
      if c.isDigit then digRunAux rest (v * 10 + (c.toNat - 48)) (k + 1) else Option.none
  | c :: rest, v, k =>
      if c.isDigit then digRunAux rest (v * 10 + (c.toNat - 48)) (k + 1)
      else some (v, k, c :: rest)

/-- Digit run that must not start with an underscore (may be empty). -/
def digRunChk : List Char → Option (Nat × Nat × List Char)
  | '_' :: _ => Option.none
  | cs => digRunAux cs 0 0

/-- Lowercase a character list (ASCII). -/
def lowerList (cs : List Char) : List Char :=
  cs.map Char.toLower

/-- Model of Python `float(s)`: strip, optional sign, `inf`/`infinity`/`nan`
case-insensitively, else decimal mantissa (digits, optional point, at least
one digit overall) with optional exponent; anything else fails. -/
def pyFloatParse (s : String) : Option PyFloat :=
  let cs0 := stripChars s.data
  let sgn : Bool × List Char :=
    match cs0 with
    | '+' :: rest => (false, rest)
    | '-' :: rest => (true, rest)
    | _ => (false, cs0)
  let lb := lowerList sgn.2
  if lb == "inf".data || lb == "infinity".data then some (PyFloat.infinite sgn.1)
  else if lb == "nan".data then some PyFloat.nan
  else
    match digRunChk sgn.2 with
    | Option.none => Option.none
    | some (iv, ik, r1) =>
      let fracRes : Option (Nat × Nat × List Char) :=
        match r1 with
        | '.' :: rest => digRunChk rest
        | _ => some (0, 0, r1)
      match fracRes with
      | Option.none => Option.none
      | some (fv, fk, r2) =>
        if ik + fk == 0 then Option.none
        else
          let expRes : Option (Int × List Char) :=
            match r2 with
            | c :: rest =>
              if c == 'e' || c == 'E' then
                let se : Bool × List Char :=
                  match rest with
                  | '+' :: r => ((false : Bool), r)
                  | '-' :: r => ((true : Bool), r)
                  | _ => ((false : Bool), rest)
                match digRunChk se.2 with
                | some (ev, ek, r3) =>
                    if ek == 0 then Option.none
                    else some ((if se.1 then -(ev : Int) else (ev : Int)), r3)
                | Option.none => Option.none
              else some (0, c :: rest)
            | [] => some (0, [])
          match expRes with
          | Option.none => Option.none
          | some (ex, r3) =>
            if !r3.isEmpty then Option.none
            else
              let mant : Rat := ((iv * 10 ^ fk + fv : Nat) : Rat) / (10 : Rat) ^ fk
              let q : Rat :=
                if ex < 0 then mant / (10 : Rat) ^ ex.natAbs
                else mant * (10 : Rat) ^ ex.natAbs
              some (PyFloat.finite (if sgn.1 then -q else q))

/-- Model of `_to_float` (nessus_tools.py lines 96-100): `float(s)` with any
raise converted to `None`. -/
def to_float (s : String) : Option PyFloat :=
  pyFloatParse s

/-- One finding as built by the dict literal at nessus_tools.py lines
102-118. -/
structure FindingR where
  plugin_id : String
  plugin_name : String
  severity : Int
  risk_factor : String
  cvss_base_score : Option PyFloat
  cvss3_base_score : Option PyFloat
  cves : List String
  port : String
  protocol : String
  svc_name : String
  description : String
  solution : String
  see_also : List String
  plugin_output : String

/-- Model of the per-item body of `parse_nessus_report` (nessus_tools.py
lines 77-119).  `int(item.get("severity") or "0")` is the one numeric
conversion not wrapped in a try/except: a non-empty, non-numeric severity
attribute raises `ValueError`; both score fields go through `_to_float` and
degrade to `None`. -/
def parseFinding (item : XElem) : Except String FindingR :=
  match pyIntParse (attrOrFalsy item "severity" "0") with
  | Option.none => Except.error "ValueError: invalid literal for int()"
  | some sev =>
    Except.ok
      { plugin_id := attrOrFalsy item "pluginID" ""
        plugin_name :=
          (let a := attrOrFalsy item "pluginName" ""
           if a == "" then safeText (findChild item "plugin_name") else a)
        severity := sev
        risk_factor := safeText (findChild item "risk_factor")
        cvss_base_score := to_float (safeText (findChild item "cvss_base_score"))
        cvss3_base_score := to_float (safeText (findChild item "cvss3_base_score"))
        cves := splitCsv (safeText (findChild item "cve"))
        port := attrOrFalsy item "port" "0"
        protocol := attrOrFalsy item "protocol" ""
        svc_name := attrOrFalsy item "svc_name" ""
        description := safeText (findChild item "description")
        solution := safeText (findChild item "solution")
        see_also := splitCsv (safeText (findChild item "see_also"))
        plugin_output := String.mk ((safeText (findChild item "plugin_output")).data.take 2000) }

/-- One host of the normalized report. -/
structure HostR where
  name : String
  properties : List (String × String)
  findings : List FindingR

/-- The normalized report (`report_name` is `None` when the Report element
lacks a name attribute, as `report_elem.get("name")` returns). -/
structure ReportR where
  report_name : PyVal
  hosts : List HostR

/-- Model of the per-host body of `parse_nessus_report` (nessus_tools.py
lines 72-127). -/
def parseHost (host : XElem) : Except String HostR :=
  match mapME parseFinding (findAllChildren host "ReportItem") with
  | Except.error e => Except.error e
  | Except.ok fs =>
    Except.ok { name := attrOrFalsy host "name" ""
                properties := tagsToDict (findChild host "HostProperties")
                findings := fs }

/-- Model of `parse_nessus_report` (nessus_tools.py lines 30-133) on the
parsed document. -/
def parse_nessus_report (root : XElem) : Except String ReportR :=
  match findChild root "Report" with
  | Option.none => Except.ok { report_name := PyVal.str "NessusReport", hosts := [] }
  | some rep =>
    match mapME parseHost (findAllChildren rep "ReportHost") with
    | Except.error e => Except.error e
    | Except.ok hs =>
      Except.ok { report_name :=
                    (match attrGet rep "name" with
                     | some n => PyVal.str n
                     | Option.none => PyVal.none)
                  hosts := hs }

/-- `parse_nessus_report` composed with `ET.parse` of the file content. -/
def parseNessusFromString (xml : String) : Except String ReportR :=
  match parseXml xml with
  | Option.none => Except.error "xml.etree.ElementTree.ParseError"
  | some root => parse_nessus_report root

/-! ### `nessus_tools.py`: the merge engine
(`compile_nessus_report_with_verification_impl`, lines 136-192) -/

/-- Model of Python `str.lower()` (ASCII): lowercase the characters. -/
def strLower (s : String) : String :=
  String.mk (s.data.map Char.toLower)

/-- Model of the inner `key` function (nessus_tools.py lines 148-149):
the pipe-joined string `host|plugin_id|port|protocol.lower()`. -/
def key4 (host plugin_id port protocol : String) : String :=
  host ++ "|" ++ plugin_id ++ "|" ++ port ++ "|" ++ strLower protocol

/-- The key of a decision dict (nessus_tools.py line 152):
`key(d.get("host",""), d.get("plugin_id",""), str(d.get("port","0")),
d.get("protocol",""))`, with `(protocol or '').lower()` raising when the
protocol value is truthy but not a string. -/
def keyOfDecision (d : List (String × PyVal)) : Except String String :=
  match pyOr (dictGetD d "protocol" (PyVal.str "")) (PyVal.str "") with
  | PyVal.str pr =>
      Except.ok (pyStr (dictGetD d "host" (PyVal.str "")) ++ "|"
        ++ pyStr (dictGetD d "plugin_id" (PyVal.str "")) ++ "|"
        ++ pyStr (dictGetD d "port" (PyVal.str "0")) ++ "|" ++ strLower pr)
  | _ => Except.error "AttributeError: lower"

/-- Model of the `decisions_index` construction (nessus_tools.py lines
146-152): a dict from key to decision dict, later entries overwriting
earlier ones with the same key. -/
def buildIndexE (entries : PyVal) :
    Except String (List (String × List (String × PyVal))) :=
  match pyIterE entries with
  | Except.error e => Except.error e
  | Except.ok es =>
    foldlME (fun idx e =>
      match asDict e with
      | Except.error er => Except.error er
      | Except.ok dm =>
        match keyOfDecision dm with
        | Except.error er => Except.error er
        | Except.ok k => Except.ok (assocInsert idx k dm)) [] es

/-- The namespaced annotation tags (`ET.register_namespace("cai", NS)` only
affects the serialized prefix; the in-tree tag is `\x7bNS\x7dname`). -/
def nsVerification : String := "\x7bhttps://aliasrobotics.com/\x7dverification"

def nsEvidence : String := "\x7bhttps://aliasrobotics.com/\x7devidence"

def nsRecommendedTests : String := "\x7bhttps://aliasrobotics.com/\x7drecommended_tests"

def nsTest : String := "\x7bhttps://aliasrobotics.com/\x7dtest"

/-- A value ET can take as attribute or text: only `str` (a non-string would
make `ET.tostring` raise; the model raises at annotation time, which is
observationally the same since the engine always serializes afterwards). -/
def asStrE : PyVal → Except String String
  | PyVal.str s => Except.ok s
  | _ => Except.error "TypeError: cannot serialize"

/-- The verification subtree appended to a matched finding (nessus_tools.py
lines 173-186): status/confidence/score attributes, an evidence child with
the rationale as text, and — only if the decision's test list is truthy — a
recommended_tests child holding one test element per entry. -/
def verSubtree (d : List (String × PyVal)) : Except String XElem :=
  match asStrE (dictGetD d "status" (PyVal.str "uncertain")) with
  | Except.error e => Except.error e
  | Except.ok status =>
    match asStrE (dictGetD d "rationale" (PyVal.str "")) with
    | Except.error e => Except.error e
    | Except.ok rationale =>
      let evid : XElem := { tag := nsEvidence, attrs := [], text := some rationale,
                            children := [], tail := Option.none }
      let testsV := pyOr (dictGetD d "recommended_tests" PyVal.none) (PyVal.list [])
      match (if pyTruthy testsV then
               match pyIterE testsV with
               | Except.error e => Except.error e
               | Except.ok ts =>
                   Except.ok [evid,
                     { tag := nsRecommendedTests, attrs := [], text := Option.none,
                       children := ts.map (fun t =>
                         { tag := nsTest, attrs := [], text := some (pyStr t),
                           children := [], tail := Option.none }),
                       tail := Option.none }]
             else Except.ok [evid]) with
      | Except.error e => Except.error e
      | Except.ok kids =>
        Except.ok
          { tag := nsVerification,
            attrs := [("status", status),
              ("confidence", pyStr (dictGetD d "confidence" (PyVal.float 0))),
              ("score", pyStr (dictGetD d "score" (PyVal.int 0)))],
            text := Option.none, children := kids, tail := Option.none }

/-- Annotate one ReportItem (nessus_tools.py lines 164-186): compute the
composite key from the enclosing host's name and the item's attributes, look
it up in the index, and append the verification subtree on a hit (a falsy —
empty — decision dict is skipped by `if not d: continue`). -/
def annotateItemE (idx : List (String × List (String × PyVal)))
    (hostName : String) (item : XElem) : Except String XElem :=
  let pid := attrOrFalsy item "pluginID" ""
  let port := attrOrFalsy item "port" "0"
  let proto := strLower (attrOrFalsy item "protocol" "")
  match (idx.find? (fun p => p.1 == key4 hostName pid port proto)).map Prod.snd with
  | Option.none => Except.ok item
  | some d =>
    if pyTruthy (PyVal.dict d) then
      match verSubtree d with
      | Except.error e => Except.error e
      | Except.ok ver => Except.ok { item with children := item.children ++ [ver] }
    else Except.ok item

/-- Annotate every ReportItem child of a ReportHost. -/
def annotateHostE (idx : List (String × List (String × PyVal)))
    (host : XElem) : Except String XElem :=
  match mapME (fun ch => if ch.tag == "ReportItem" then
                  annotateItemE idx (attrOrFalsy host "name" "") ch
                else Except.ok ch) host.children with
  | Except.error e => Except.error e
  | Except.ok cs => Except.ok { host with children := cs }

/-- Annotate every ReportHost child of the Report element. -/
def processReportE (idx : List (String × List (String × PyVal)))
    (rep : XElem) : Except String XElem :=
  match mapME (fun ch => if ch.tag == "ReportHost" then annotateHostE idx ch
                         else Except.ok ch) rep.children with
  | Except.error e => Except.error e
  | Except.ok hs => Except.ok { rep with children := hs }

/-- `root.find("Report")` returns the first Report child; only that one is
processed, everything else is left untouched. -/
def replaceFirstReportE (idx : List (String × List (String × PyVal))) :
    List XElem → Except String (List XElem)
  | [] => Except.ok []
  | c :: rest =>
    if c.tag == "Report" then
      match processReportE idx c with
      | Except.error e => Except.error e
      | Except.ok c' => Except.ok (c' :: rest)
    else
      match replaceFirstReportE idx rest with
      | Except.error e => Except.error e
      | Except.ok rest' => Except.ok (c :: rest')

/-- The in-place annotation pass over the parsed tree (nessus_tools.py lines
160-186). -/
def mergeRootE (root : XElem) (idx : List (String × List (String × PyVal))) :
    Except String XElem :=
  match replaceFirstReportE idx root.children with
  | Except.error e => Except.error e
  | Except.ok cs => Except.ok { root with children := cs }

/-- Index construction followed by the annotation pass, for a given
`decisions` list value. -/
def mergeFromEntries (t : XElem) (entries : PyVal) : Except String XElem :=
  match buildIndexE entries with
  | Except.error e => Except.error e
  | Except.ok idx => mergeRootE t idx

/-- Model of `compile_nessus_report_with_verification_impl` (nessus_tools.py
lines 136-192) on the source document's content: `json.loads(decisions_json
or "{}")`, `decisions.get("decisions", [])`, index construction, `ET.parse`,
the annotation pass, and `ET.tostring(..., xml_declaration=True)`. -/
def compile_nessus_report_with_verification_impl (srcXml : String)
    (decisionsJson : String) : Except String String :=
  match jsonLoads (if decisionsJson == "" then "\x7b\x7d" else decisionsJson) with
  | Option.none => Except.error "json.JSONDecodeError"
  | some decObj =>
    match asDict decObj with
    | Except.error e => Except.error e
    | Except.ok dm =>
      match buildIndexE (dictGetD dm "decisions" (PyVal.list [])) with
      | Except.error e => Except.error e
      | Except.ok idx =>
        match parseXml srcXml with
        | Option.none => Except.error "xml.etree.ElementTree.ParseError"
        | some root =>
          match mergeRootE root idx with
          | Except.error e => Except.error e
          | Except.ok root' => Except.ok (xmlDecl ++ serializeXml root')

/-! ### Merge-engine lemmas and the merge claims -/

/-- `mapME` of a pointwise-identity action is the identity. -/
theorem mapME_ok {α : Type} (f : α → Except String α) :
    ∀ l : List α, (∀ x ∈ l, f x = Except.ok x) → mapME f l = Except.ok l := by
  intro l
  induction l with
  | nil => intro _; rfl
  | cons x xs ih =>
    intro h
    have hx : f x = Except.ok x := h x (List.mem_cons_self x xs)
    have hxs := ih (fun y hy => h y (List.mem_cons_of_mem x hy))
    simp [mapME, hx, hxs]

/-- With an empty index no item is annotated. -/
theorem annotateItemE_nil (h : String) (item : XElem) :
    annotateItemE [] h item = Except.ok item := rfl

/-- Structure eta for elements, packaged for simp. -/
theorem xelemEta (t : XElem) :
    ({ tag := t.tag, attrs := t.attrs, text := t.text, children := t.children,
       tail := t.tail } : XElem) = t := by
  cases t
  rfl

/-- With an empty index a host is returned unchanged. -/
theorem annotateHostE_nil (host : XElem) : annotateHostE [] host = Except.ok host := by
  have h : mapME (fun ch => if ch.tag == "ReportItem" then
      annotateItemE [] (attrOrFalsy host "name" "") ch else Except.ok ch) host.children
      = Except.ok host.children := by
    apply mapME_ok
    intro x _
    by_cases htag : (x.tag == "ReportItem") = true
    · simp [htag, annotateItemE_nil]
    · simp [htag]
  simp only [annotateHostE]
  rw [h]
  exact congrArg Except.ok (xelemEta host)

/-- With an empty index a Report element is returned unchanged. -/
theorem processReportE_nil (rep : XElem) : processReportE [] rep = Except.ok rep := by
  have h : mapME (fun ch => if ch.tag == "ReportHost" then annotateHostE [] ch
      else Except.ok ch) rep.children = Except.ok rep.children := by
    apply mapME_ok
    intro x _
    by_cases htag : (x.tag == "ReportHost") = true
    · simp [htag, annotateHostE_nil]
    · simp [htag]
  simp only [processReportE]
  rw [h]
  exact congrArg Except.ok (xelemEta rep)

/-- With an empty index the child list is returned unchanged. -/
theorem replaceFirstReportE_nil :
    ∀ l : List XElem, replaceFirstReportE [] l = Except.ok l := by
  intro l
  induction l with
  | nil => rfl
  | cons c rest ih =>
    by_cases hc : (c.tag == "Report") = true
    · simp [replaceFirstReportE, hc, processReportE_nil, xelemEta]
    · simp [replaceFirstReportE, hc, ih]

/-- Merging an empty decision index leaves the tree unchanged. -/
theorem mergeRootE_empty (t : XElem) : mergeRootE t [] = Except.ok t := by
  simp only [mergeRootE]
  rw [replaceFirstReportE_nil]
  exact congrArg Except.ok (xelemEta t)

/-- C3 (amended): merging an empty decision set never changes the parsed
element tree — nothing is annotated anywhere — and the engine's output is
the document declaration followed by the serializer's canonical rendering of
that unchanged tree.  (Byte identity with the source beyond the declaration
holds only when the source is already in the serializer's canonical form;
see the counterexample.) -/
theorem C3_empty_merge_tree_identity :
    (∀ t : XElem, mergeRootE t [] = Except.ok t) ∧
    (∀ (src : String) (root : XElem), parseXml src = some root →
      compile_nessus_report_with_verification_impl src "\x7b\"decisions\": []\x7d"
        = Except.ok (xmlDecl ++ serializeXml root)) := by
  refine ⟨mergeRootE_empty, ?_⟩
  intro src root hp
  have step : compile_nessus_report_with_verification_impl src "\x7b\"decisions\": []\x7d"
      = (match parseXml src with
         | Option.none => Except.error "xml.etree.ElementTree.ParseError"
         | some r =>
           match mergeRootE r [] with
           | Except.error e => Except.error e
           | Except.ok r' => Except.ok (xmlDecl ++ serializeXml r')) := rfl
  rw [step, hp]
  simp [mergeRootE_empty root]

/-- C3 (counterexample to the claim as stated): the well-formed document
`<a></a>` merged with the empty decision set serializes as `<a />` — the
output is not byte-identical to the source beyond the declaration, because
ET re-serializes the tree in canonical form. -/
theorem C3_byte_identity_counterexample :
    compile_nessus_report_with_verification_impl "<a></a>" "\x7b\"decisions\": []\x7d"
      = Except.ok (xmlDecl ++ "<a />") ∧
    xmlDecl ++ "<a />" ≠ xmlDecl ++ "<a></a>" := by
  constructor
  · rfl
  · decide

/-- Witness for C3 (amended): a concrete parse discharges the hypothesis. -/
theorem C3_empty_merge_tree_identity_witness :
    compile_nessus_report_with_verification_impl "<b></b>" "\x7b\"decisions\": []\x7d"
      = Except.ok (xmlDecl ++ serializeXml
          ⟨"b", [], Option.none, [], Option.none⟩) :=
  C3_empty_merge_tree_identity.2 "<b></b>" ⟨"b", [], Option.none, [], Option.none⟩ rfl

/-- C9: an empty decisions string (loaded as `"\x7b\x7d"` by the
`decisions_json or "\x7b\x7d"` guard at nessus_tools.py line 144) or a JSON
object with no `decisions` key (defaulted by `.get("decisions", [])` at line
145) does not raise: the engine merges the empty decision set and returns
the serialized document unannotated. -/
theorem C9_empty_decisions_input :
    ∀ (src : String) (root : XElem) (dj : String),
      parseXml src = some root →
      (dj = "" ∨ (∃ m, jsonLoads dj = some (PyVal.dict m) ∧
          dictLookup m "decisions" = Option.none)) →
      compile_nessus_report_with_verification_impl src dj
        = Except.ok (xmlDecl ++ serializeXml root) := by
  intro src root dj hp hdj
  rcases hdj with hdj | ⟨m, hm, hnone⟩
  · subst hdj
    have step : compile_nessus_report_with_verification_impl src ""
        = (match parseXml src with
           | Option.none => Except.error "xml.etree.ElementTree.ParseError"
           | some r =>
             match mergeRootE r [] with
             | Except.error e => Except.error e
             | Except.ok r' => Except.ok (xmlDecl ++ serializeXml r')) := rfl
    rw [step, hp]
    simp [mergeRootE_empty root]
  · by_cases h0 : dj = ""
    · rw [h0] at hm
      rw [show jsonLoads "" = Option.none from rfl] at hm
      cases hm
    · have hif : (if dj == "" then "\x7b\x7d" else dj) = dj := by
        simp [h0]
      have hent : dictGetD m "decisions" (PyVal.list []) = PyVal.list [] := by
        simp [dictGetD, hnone]
      simp only [compile_nessus_report_with_verification_impl, hif, hm, hp]
      simp [asDict, buildIndexE, pyIterE, foldlME, hent, mergeRootE_empty root]

/-- Witness for C9: a concrete document and the empty decisions string. -/
theorem C9_empty_decisions_input_witness :
    compile_nessus_report_with_verification_impl "<c/>" ""
      = Except.ok (xmlDecl ++ serializeXml
          ⟨"c", [], Option.none, [], Option.none⟩) :=
  C9_empty_decisions_input "<c/>" ⟨"c", [], Option.none, [], Option.none⟩ ""
    rfl (Or.inl rfl)

/-- C7: the shape-detection chain checks `verification_results` first, then
`recommendations`, then `decisions` (nessus_verifier.py lines 272-283); when
none of the three keys is present the result is the empty decision set with
the diagnostic note rather than a raise, and merging zero decisions succeeds
and annotates nothing. -/
theorem C7_detection_order :
    (∀ m : List (String × PyVal), (dictLookup m "verification_results").isSome = true →
        resolveDecisions (PyVal.dict m) = convertVerificationToDecisions m) ∧
    (∀ m : List (String × PyVal), dictLookup m "verification_results" = Option.none →
        (dictLookup m "recommendations").isSome = true →
        resolveDecisions (PyVal.dict m) = convertRecommendationsToDecisions m) ∧
    (∀ m : List (String × PyVal), dictLookup m "verification_results" = Option.none →
        dictLookup m "recommendations" = Option.none →
        (dictLookup m "decisions").isSome = true →
        resolveDecisions (PyVal.dict m) = Except.ok (PyVal.dict m)) ∧
    (∀ m : List (String × PyVal), dictLookup m "verification_results" = Option.none →
        dictLookup m "recommendations" = Option.none →
        dictLookup m "decisions" = Option.none →
        resolveDecisions (PyVal.dict m) = Except.ok fallbackDecisions) ∧
    (∀ t : XElem, mergeRootE t [] = Except.ok t) := by
  refine ⟨?_, ?_, ?_, ?_, mergeRootE_empty⟩
  · intro m h
    simp [resolveDecisions, h]
  · intro m h1 h2
    simp [resolveDecisions, h1, h2]
  · intro m h1 h2 h3
    simp [resolveDecisions, h1, h2, h3]
  · intro m h1 h2 h3
    simp [resolveDecisions, h1, h2, h3]

/-- Witness for C7: the empty parsed object takes the fallback branch, and a
concrete tree is merged unchanged by the empty decision set. -/
theorem C7_detection_order_witness :
    resolveDecisions (PyVal.dict []) = Except.ok fallbackDecisions ∧
    mergeRootE ⟨"d", [], Option.none, [], Option.none⟩ []
      = Except.ok ⟨"d", [], Option.none, [], Option.none⟩ :=
  ⟨C7_detection_order.2.2.2.1 [] rfl rfl rfl,
   C7_detection_order.2.2.2.2 ⟨"d", [], Option.none, [], Option.none⟩⟩

/-- C8: a decision set of two records with the same identity key builds an
index holding only the later record (dict assignment at nessus_tools.py
lines 151-152 overwrites), so the merge behaves exactly as if only the later
record had been supplied — no error is raised for the collision. -/
theorem C8_duplicate_key_later_wins :
    ∀ (t : XElem) (d1 d2 : List (String × PyVal)) (k : String),
      keyOfDecision d1 = Except.ok k → keyOfDecision d2 = Except.ok k →
      buildIndexE (PyVal.list [PyVal.dict d1, PyVal.dict d2]) = Except.ok [(k, d2)] ∧
      mergeFromEntries t (PyVal.list [PyVal.dict d1, PyVal.dict d2])
        = mergeFromEntries t (PyVal.list [PyVal.dict d2]) := by
  intro t d1 d2 k h1 h2
  have hb : buildIndexE (PyVal.list [PyVal.dict d1, PyVal.dict d2])
      = Except.ok [(k, d2)] := by
    simp [buildIndexE, pyIterE, foldlME, asDict, h1, h2, assocInsert]
  have hb2 : buildIndexE (PyVal.list [PyVal.dict d2]) = Except.ok [(k, d2)] := by
    simp [buildIndexE, pyIterE, foldlME, asDict, h2, assocInsert]
  refine ⟨hb, ?_⟩
  simp [mergeFromEntries, hb, hb2]

/-- The two colliding decision records of the C8 witness. -/
def dupDecisionA : List (String × PyVal) :=
  [("host", PyVal.str "h"), ("plugin_id", PyVal.str "1"),
   ("status", PyVal.str "confirmed")]

/-- Later record with the same identity key but a different status. -/
def dupDecisionB : List (String × PyVal) :=
  [("host", PyVal.str "h"), ("plugin_id", PyVal.str "1"),
   ("status", PyVal.str "rejected")]

/-- Witness for C8: two concrete records with the identical key `h|1|0|`. -/
theorem C8_duplicate_key_later_wins_witness :
    buildIndexE (PyVal.list [PyVal.dict dupDecisionA, PyVal.dict dupDecisionB])
      = Except.ok [("h|1|0|", dupDecisionB)] ∧
    mergeFromEntries ⟨"e", [], Option.none, [], Option.none⟩
        (PyVal.list [PyVal.dict dupDecisionA, PyVal.dict dupDecisionB])
      = mergeFromEntries ⟨"e", [], Option.none, [], Option.none⟩
        (PyVal.list [PyVal.dict dupDecisionB]) :=
  C8_duplicate_key_later_wins ⟨"e", [], Option.none, [], Option.none⟩
    dupDecisionA dupDecisionB "h|1|0|" rfl rfl

/-! ### C5: key matching vs tuple equality -/

/-- `String.data` distributes over append. -/
theorem dataAppend (s t : String) : (s ++ t).data = s.data ++ t.data := rfl

/-- The data of the pipe separator. -/
theorem pipeData : ("|" : String).data = ['|'] := rfl

/-- String equality is data equality. -/
theorem stringEqIffData (s t : String) : s = t ↔ s.data = t.data := by
  constructor
  · intro h
    rw [h]
  · intro h
    cases s
    cases t
    exact congrArg String.mk h

/-- Splitting at the first pipe is unambiguous when neither prefix contains
a pipe. -/
theorem pipeSplit : ∀ (a c x y : List Char), '|' ∉ a → '|' ∉ c →
    a ++ '|' :: x = c ++ '|' :: y → a = c ∧ x = y := by
  intro a
  induction a with
  | nil =>
    intro c x y _ hc h
    cases c with
    | nil =>
      simp only [List.nil_append] at h
      injection h with _ h2
      exact ⟨rfl, h2⟩
    | cons d ds =>
      simp only [List.nil_append, List.cons_append] at h
      injection h with h1 _
      subst h1
      exact absurd (List.mem_cons_self _ _) hc
  | cons b bs ih =>
    intro c x y hb hc h
    cases c with
    | nil =>
      simp only [List.nil_append, List.cons_append] at h
      injection h with h1 _
      subst h1
      exact absurd (List.mem_cons_self _ _) hb
    | cons d ds =>
      simp only [List.cons_append] at h
      injection h with h1 h2
      have hr := ih ds x y (fun hm => hb (List.mem_cons_of_mem b hm))
        (fun hm => hc (List.mem_cons_of_mem d hm)) h2
      exact ⟨by rw [h1, hr.1], hr.2⟩

/-- The character list underlying a composite key. -/
theorem key4_data (h p prt proto : String) :
    (key4 h p prt proto).data
      = h.data ++ '|' :: (p.data ++ '|' :: (prt.data ++ '|' :: (strLower proto).data)) := by
  simp [key4, dataAppend, pipeData]

/-- C5 (amended): the merge matches by equality of the pipe-joined string
`host|plugin_id|port|protocol.lower()` (nessus_tools.py lines 148-149).
Two decisions differing only in the case of the protocol always produce the
same key, and whenever no component contains the separator `|`, key equality
is exactly tuple equality with the protocol compared case-insensitively.
(When a component does contain `|`, distinct tuples can collide; see the
counterexample.) -/
theorem C5_key_tuple_correspondence :
    (∀ h p prt pr pr' : String, strLower pr = strLower pr' →
        key4 h p prt pr = key4 h p prt pr') ∧
    (∀ h p prt pr h' p' prt' pr' : String,
        '|' ∉ h.data → '|' ∉ p.data → '|' ∉ prt.data → '|' ∉ (strLower pr).data →
        '|' ∉ h'.data → '|' ∉ p'.data → '|' ∉ prt'.data → '|' ∉ (strLower pr').data →
        (key4 h p prt pr = key4 h' p' prt' pr' ↔
          (h = h' ∧ p = p' ∧ prt = prt' ∧ strLower pr = strLower pr'))) := by
  constructor
  · intro h p prt pr pr' hl
    simp [key4, hl]
  · intro h p prt pr h' p' prt' pr' nh np nprt npr nh' np' nprt' npr'
    constructor
    · intro hk
      have hd : (key4 h p prt pr).data = (key4 h' p' prt' pr').data := by rw [hk]
      rw [key4_data, key4_data] at hd
      obtain ⟨e1, hd1⟩ := pipeSplit _ _ _ _ nh nh' hd
      obtain ⟨e2, hd2⟩ := pipeSplit _ _ _ _ np np' hd1
      obtain ⟨e3, hd3⟩ := pipeSplit _ _ _ _ nprt nprt' hd2
      exact ⟨(stringEqIffData h h').mpr e1, (stringEqIffData p p').mpr e2,
        (stringEqIffData prt prt').mpr e3, (stringEqIffData _ _).mpr hd3⟩
    · rintro ⟨e1, e2, e3, e4⟩
      rw [e1, e2, e3]
      simp [key4, e4]

/-- The finding used by the C5 counterexample: host `a|b`, plugin `c`. -/
def pipeItem : XElem :=
  ⟨"ReportItem", [("pluginID", "c"), ("port", "0"), ("protocol", "tcp")],
   Option.none, [], Option.none⟩

/-- Its enclosing host element. -/
def pipeHost : XElem :=
  ⟨"ReportHost", [("name", "a|b")], Option.none, [pipeItem], Option.none⟩

/-- The enclosing document tree. -/
def pipeTree : XElem :=
  ⟨"NessusClientData_v2", [], Option.none,
   [⟨"Report", [], Option.none, [pipeHost], Option.none⟩], Option.none⟩

/-- The decision of the C5 counterexample: host `a`, plugin `b|c` — a
different tuple with the same pipe-joined key `a|b|c|0|tcp`. -/
def pipeDecision : List (String × PyVal) :=
  [("host", PyVal.str "a"), ("plugin_id", PyVal.str "b|c"),
   ("port", PyVal.str "0"), ("protocol", PyVal.str "tcp")]

/-- The annotation subtree that merge appends for `pipeDecision` (all
defaulted fields). -/
def pipeVer : XElem :=
  ⟨nsVerification,
   [("status", "uncertain"), ("confidence", "0.0"), ("score", "0")],
   Option.none, [⟨nsEvidence, [], some "", [], Option.none⟩], Option.none⟩

/-- The tree after the merge: the finding was matched and annotated. -/
def pipeAnnotated : XElem :=
  ⟨"NessusClientData_v2", [], Option.none,
   [⟨"Report", [], Option.none,
     [⟨"ReportHost", [("name", "a|b")], Option.none,
       [⟨"ReportItem", [("pluginID", "c"), ("port", "0"), ("protocol", "tcp")],
         Option.none, [pipeVer], Option.none⟩], Option.none⟩],
     Option.none⟩], Option.none⟩

/-- C5 (counterexample to the claim as stated): the decision with tuple
(`a`, `b|c`, `0`, `tcp`) is matched to the finding with tuple (`a|b`, `c`,
`0`, `tcp`) — the merge annotates the finding although the two tuples
differ, because the pipe-joined keys coincide. -/
theorem C5_key_tuple_counterexample :
    mergeFromEntries pipeTree (PyVal.list [PyVal.dict pipeDecision])
      = Except.ok pipeAnnotated ∧
    (("a|b", "c", "0", strLower "tcp") ≠ ("a", "b|c", "0", strLower "tcp")) := by
  constructor
  · rfl
  · decide

/-- Witness for C5 (amended): concrete protocols differing only in case, and
a concrete pipe-free tuple comparison. -/
theorem C5_key_tuple_witness :
    key4 "h" "1" "443" "TCP" = key4 "h" "1" "443" "tcp" ∧
    (key4 "h" "1" "443" "tcp" = key4 "h2" "1" "443" "tcp" ↔
      (("h" : String) = "h2" ∧ ("1" : String) = "1" ∧ ("443" : String) = "443" ∧
        strLower "tcp" = strLower "tcp")) :=
  ⟨C5_key_tuple_correspondence.1 "h" "1" "443" "TCP" "tcp" (by decide),
   C5_key_tuple_correspondence.2 "h" "1" "443" "tcp" "h2" "1" "443" "tcp"
     (by decide) (by decide) (by decide) (by decide) (by decide) (by decide)
     (by decide) (by decide)⟩

/-! ### C4: numeric parsing of findings -/

/-- C4 (amended): parsing a finding succeeds exactly when its severity text
(the attribute, defaulting to `"0"` when absent or empty) parses as a Python
int; on success, both score fields degrade to `None` — a missing
`cvss_base_score`/`cvss3_base_score` child, or child text that does not
parse as a Python float, yields `None` (never `0.0`) — and a missing
severity attribute yields severity `0`. -/
theorem C4_numeric_parsing_amended :
    (∀ item : XElem, (pyIntParse (attrOrFalsy item "severity" "0")).isSome = true →
        (parseFinding item).isOk = true) ∧
    (∀ (item : XElem) (f : FindingR), parseFinding item = Except.ok f →
        (findChild item "cvss_base_score" = Option.none →
          f.cvss_base_score = Option.none) ∧
        (findChild item "cvss3_base_score" = Option.none →
          f.cvss3_base_score = Option.none) ∧
        (pyFloatParse (safeText (findChild item "cvss_base_score")) = Option.none →
          f.cvss_base_score = Option.none) ∧
        (attrGet item "severity" = Option.none → f.severity = 0)) := by
  constructor
  · intro item h
    cases hop : pyIntParse (attrOrFalsy item "severity" "0") with
    | none =>
      rw [hop] at h
      cases h
    | some n =>
      simp [parseFinding, hop, Except.isOk, Except.toBool]
  · intro item f hf
    cases hop : pyIntParse (attrOrFalsy item "severity" "0") with
    | none =>
      simp only [parseFinding] at hf
      rw [hop] at hf
      simp at hf
    | some sev =>
      simp only [parseFinding] at hf
      rw [hop] at hf
      injection hf with hrec
      subst hrec
      refine ⟨?_, ?_, ?_, ?_⟩
      · intro h
        rw [h]
        rfl
      · intro h
        rw [h]
        rfl
      · intro h
        exact h
      · intro h
        have ha : attrOrFalsy item "severity" "0" = "0" := by
          simp [attrOrFalsy, h]
        rw [ha] at hop
        have h0 : pyIntParse "0" = some 0 := rfl
        rw [h0] at hop
        injection hop with h1
        exact h1.symm

/-- A well-formed document whose single finding carries the non-numeric
severity attribute `high` (C4 counterexample input). -/
def badSeverityDoc : String :=
  "<x><Report><ReportHost name=\"h\"><ReportItem pluginID=\"1\" severity=\"high\"></ReportItem></ReportHost></Report></x>"

/-- C4 (counterexample to the claim as stated): on `badSeverityDoc` the
parser raises — `int(item.get("severity") or "0")` at nessus_tools.py line
79 is not wrapped in a try/except, so a non-numeric severity is a
`ValueError`, contradicting "parse never raises on numeric fields". -/
theorem C4_severity_raises_counterexample :
    parseNessusFromString badSeverityDoc
      = Except.error "ValueError: invalid literal for int()" := rfl

/-- The finding of the C4 witness item. -/
def itemNoCvss : XElem :=
  ⟨"ReportItem", [("pluginID", "1"), ("severity", "2")], Option.none, [],
   Option.none⟩

/-- The record `parseFinding` produces for it. -/
def findingNoCvss : FindingR :=
  ⟨"1", "", 2, "", Option.none, Option.none, [], "0", "", "", "", "", [], ""⟩

/-- Witness for C4 (amended): a concrete item with numeric severity parses,
and its missing `cvss_base_score` child yields `None`. -/
theorem C4_numeric_parsing_witness :
    (parseFinding itemNoCvss).isOk = true ∧
    findingNoCvss.cvss_base_score = Option.none := by
  constructor
  · exact C4_numeric_parsing_amended.1 itemNoCvss rfl
  · exact (C4_numeric_parsing_amended.2 itemNoCvss findingNoCvss rfl).1 rfl
